import Mathlib

/-
Shallow embedding of the collectxyz NFT contract's core module
(src/packages/collectxyz/src/nft.rs).

Machine integers are modelled as unbounded Int / Nat.  Every arithmetic
operation the Rust code performs on a machine-integer type is modelled by
a checked operation returning an Option: `none` models the operation
aborting execution.  The `try_into::<u16>().unwrap()` in
`Coordinates::distance` aborts on out-of-range values by the unwrap in
the source itself.  For the arithmetic operators (`-`, `+`, `*`, `abs`,
unary `-`) the abort-on-overflow behaviour is the standard
overflow-checked build used for CosmWasm contracts; the build profile is
not part of the sources embedded here, so, modelled from the spec: the
spec requires implementations to "fail or saturate deterministically
rather than silently wrap" on overflow, which we model as `none`
(deterministic failure).
-/

namespace Xyz

/-- Smallest i64 value, -2^63. -/
def I64_MIN : Int := -(2 ^ 63)

/-- Largest i64 value, 2^63 - 1. -/
def I64_MAX : Int := 2 ^ 63 - 1

/-- Largest u16 value. -/
def U16_MAX : Nat := 2 ^ 16 - 1

/-- Largest u64 value. -/
def U64_MAX : Nat := 2 ^ 64 - 1

/-- Largest u128 value. -/
def U128_MAX : Nat := 2 ^ 128 - 1

/-- Checked i64 subtraction: `a - b` aborts (`none`) when the exact result
leaves the i64 range. -/
def checkedSubI64 (a b : Int) : Option Int :=
  if I64_MIN ≤ a - b ∧ a - b ≤ I64_MAX then some (a - b) else none

/-- Checked i64 addition: `a + b` aborts (`none`) when the exact result
leaves the i64 range. -/
def checkedAddI64 (a b : Int) : Option Int :=
  if I64_MIN ≤ a + b ∧ a + b ≤ I64_MAX then some (a + b) else none

/-- Checked i64 negation: `-a` aborts exactly when `a = i64::MIN`. -/
def checkedNegI64 (a : Int) : Option Int :=
  if I64_MIN ≤ -a ∧ -a ≤ I64_MAX then some (-a) else none

/-- Checked `i64::abs`: aborts exactly when the argument is `i64::MIN`
(whose absolute value is not representable); arguments are always produced
by a checked i64 operation, hence in range. -/
def checkedAbsI64 (a : Int) : Option Int :=
  if a = I64_MIN then none else some (a.natAbs : Int)

/-- Checked u64 addition. -/
def checkedAddU64 (a b : Nat) : Option Nat :=
  if a + b ≤ U64_MAX then some (a + b) else none

/-- Checked u64 multiplication. -/
def checkedMulU64 (a b : Nat) : Option Nat :=
  if a * b ≤ U64_MAX then some (a * b) else none

/-- Checked u128 addition. -/
def checkedAddU128 (a b : Nat) : Option Nat :=
  if a + b ≤ U128_MAX then some (a + b) else none

/-- Checked u128 multiplication. -/
def checkedMulU128 (a b : Nat) : Option Nat :=
  if a * b ≤ U128_MAX then some (a * b) else none

/-- `cosmwasm_std::Coin`: an amount (Uint128) of a given denomination. -/
structure Coin where
  amount : Nat
  denom : String
deriving DecidableEq

/-- The `Coordinates` struct: a triple of i64 values (nft.rs lines 70-75). -/
structure Coordinates where
  x : Int
  y : Int
  z : Int
deriving DecidableEq

/-- The value range the Rust `i64` type imposes on each field of
`Coordinates`. -/
def Coordinates.valid (c : Coordinates) : Prop :=
  I64_MIN ≤ c.x ∧ c.x ≤ I64_MAX ∧
  I64_MIN ≤ c.y ∧ c.y ≤ I64_MAX ∧
  I64_MIN ≤ c.z ∧ c.z ≤ I64_MAX

instance (c : Coordinates) : Decidable c.valid := by
  unfold Coordinates.valid; infer_instance

/-- One axis of `Coordinates::distance`: `(a - b).abs()` on i64. -/
def axisDist (a b : Int) : Option Int :=
  (checkedSubI64 a b).bind checkedAbsI64

/-- `Coordinates::distance` (nft.rs lines 87-92):
`(self.x - other.x).abs() + (self.y - other.y).abs() + (self.z - other.z).abs()`
computed in i64, then `try_into::<u16>().unwrap()`.  `none` models an abort
(overflow of an i64 step or a sum exceeding `u16::MAX`). -/
def distance (a b : Coordinates) : Option Nat :=
  (axisDist a.x b.x).bind fun dx =>
  (axisDist a.y b.y).bind fun dy =>
  (axisDist a.z b.z).bind fun dz =>
  (checkedAddI64 dx dy).bind fun s1 =>
  (checkedAddI64 s1 dz).bind fun s =>
  if 0 ≤ s ∧ s ≤ (U16_MAX : Int) then some s.toNat else none

/-- The exact (mathematical) Manhattan / L1 distance of two coordinate
triples, as a natural number. -/
def manhattanNat (a b : Coordinates) : Nat :=
  (a.x - b.x).natAbs + (a.y - b.y).natAbs + (a.z - b.z).natAbs

/-- The `Config` struct (nft.rs lines 12-39). -/
structure Config where
  public_minting_enabled : Bool
  max_coordinate_value : Int
  token_supply : Nat
  wallet_limit : Nat
  mint_fee : Coin
  base_move_nanos : Nat
  move_nanos_per_step : Nat
  base_move_fee : Coin
  move_fee_per_step : Nat
deriving DecidableEq

/-- `Config::get_move_fee` (nft.rs lines 42-47):
`base_move_fee.amount.u128() + move_fee_per_step.u128() * distance`,
wrapped in a Coin with `base_move_fee.denom`. -/
def Config.get_move_fee (cfg : Config) (start finish : Coordinates) : Option Coin :=
  (distance start finish).bind fun d =>
  (checkedMulU128 cfg.move_fee_per_step d).bind fun stepCost =>
  (checkedAddU128 cfg.base_move_fee.amount stepCost).bind fun amt =>
  some ⟨amt, cfg.base_move_fee.denom⟩

/-- `Config::get_move_nanos` (nft.rs lines 49-52):
`base_move_nanos + move_nanos_per_step * distance` in u64. -/
def Config.get_move_nanos (cfg : Config) (start finish : Coordinates) : Option Nat :=
  (distance start finish).bind fun d =>
  (checkedMulU64 cfg.move_nanos_per_step d).bind fun stepNanos =>
  checkedAddU64 cfg.base_move_nanos stepNanos

/-- `Config::check_bounds` (nft.rs lines 54-67).  The outer Option models
the checked negation `-self.max_coordinate_value`; the Except is the
`StdResult<()>`, with the generic error message as its String. -/
def Config.check_bounds (cfg : Config) (coords : Coordinates) : Option (Except String Unit) :=
  (checkedNegI64 cfg.max_coordinate_value).bind fun min_coordinate_value =>
  if [coords.x, coords.y, coords.z].any
      (fun c => c < min_coordinate_value || c > cfg.max_coordinate_value) then
    some (Except.error
      ("coordinate values must be between " ++ toString min_coordinate_value ++
        " and " ++ toString cfg.max_coordinate_value))
  else
    some (Except.ok ())

instance : DecidableEq (Except String Unit)
  | .ok a, .ok b => .isTrue (by cases a; cases b; rfl)
  | .error a, .error b =>
    if h : a = b then .isTrue (by rw [h]) else .isFalse (by simp [h])
  | .ok _, .error _ => .isFalse (by simp)
  | .error _, .ok _ => .isFalse (by simp)

/-- Membership of every axis in the closed interval
`[-max_coordinate_value, max_coordinate_value]` -- the acceptance region
the spec ascribes to `check_bounds`. -/
def inBounds (cfg : Config) (c : Coordinates) : Prop :=
  -cfg.max_coordinate_value ≤ c.x ∧ c.x ≤ cfg.max_coordinate_value ∧
  -cfg.max_coordinate_value ≤ c.y ∧ c.y ≤ cfg.max_coordinate_value ∧
  -cfg.max_coordinate_value ≤ c.z ∧ c.z ≤ cfg.max_coordinate_value

instance (cfg : Config) (c : Coordinates) : Decidable (inBounds cfg c) := by
  unfold inBounds; infer_instance

/-- The configuration of the spec's worked example: `base_move_fee` 10,
`move_fee_per_step` 2, `base_move_nanos` 1000, `move_nanos_per_step` 500,
`max_coordinate_value` 100. -/
def cfgExample : Config :=
  ⟨true, 100, 10000, 5, ⟨1000000, "uluna"⟩, 1000, 500, ⟨10, "uluna"⟩, 2⟩

/-- A configuration whose `max_coordinate_value` is 10923, the smallest
magnitude for which two in-bounds coordinates can be farther apart than
`u16::MAX`. -/
def cfg10923 : Config :=
  ⟨true, 10923, 10000, 5, ⟨1000000, "uluna"⟩, 1000, 500, ⟨10, "uluna"⟩, 2⟩

/-- A configuration whose move-fee parameters overflow u128 at distance 1:
`base_move_fee.amount = u128::MAX` and `move_fee_per_step = 1`. -/
def cfgFeeOverflow : Config :=
  ⟨true, 1000, 10000, 5, ⟨1, "uluna"⟩, 1000, 500, ⟨U128_MAX, "uluna"⟩, 1⟩

/-- A configuration whose move-duration parameters overflow u64 at
distance 1: `base_move_nanos = u64::MAX` and `move_nanos_per_step = 1`. -/
def cfgNanosOverflow : Config :=
  ⟨true, 1000, 10000, 5, ⟨1, "uluna"⟩, U64_MAX, 1, ⟨10, "uluna"⟩, 2⟩

/-- Big-endian base-256 digits of `n`, `k` bytes long (most significant
byte first), i.e. the last `k` bytes of the binary representation. -/
def bytesBE : Nat → Nat → List Nat
  | 0, _ => []
  | k + 1, n => bytesBE k (n / 256) ++ [n % 256]

/-- `i64::to_be_bytes`: the 8-byte big-endian two's-complement encoding.
For `v` in the i64 range, `v % 2^64` (Euclidean remainder, always in
`[0, 2^64)`) is exactly the two's-complement bit pattern. -/
def i64ToBeBytes (v : Int) : List Nat :=
  bytesBE 8 (v % (2 ^ 64 : Int)).toNat

/-- `Coordinates::to_bytes` (nft.rs lines 78-85): the concatenation of the
big-endian byte encodings of x, y, z. -/
def Coordinates.to_bytes (c : Coordinates) : List Nat :=
  i64ToBeBytes c.x ++ i64ToBeBytes c.y ++ i64ToBeBytes c.z

/-- `cosmwasm_std::Timestamp`: nanoseconds since epoch (u64). -/
structure Timestamp where
  nanos : Nat
deriving DecidableEq

/-- `cw721::Expiration`. -/
inductive Expiration where
  | AtHeight (height : Nat)
  | AtTime (time : Timestamp)
  | Never
deriving DecidableEq

/-- `cosmwasm_std::Binary`: an opaque byte payload. -/
def Binary := List Nat

instance : DecidableEq Binary := by
  unfold Binary; infer_instance

/-- The `XyzExtension` struct (nft.rs lines 95-100). -/
structure XyzExtension where
  coordinates : Coordinates
  prev_coordinates : Option Coordinates
  arrival : Timestamp
deriving DecidableEq

/-- `cw721_base::msg::MintMsg<XyzExtension>` (external crate), payload of
the base registry's own mint command. -/
structure MintMsg where
  token_id : String
  owner : String
  token_uri : Option String
  extension : XyzExtension
deriving DecidableEq

/-- The extended command vocabulary `ExecuteMsg` (nft.rs lines 115-167). -/
inductive ExecuteMsg where
  | Mint (coordinates : Coordinates) (captcha_signature : String)
  | Move (token_id : String) (coordinates : Coordinates)
  | UpdateConfig (config : Config)
  | UpdateCaptchaPublicKey (public_key : String)
  | Withdraw (amount : List Coin)
  | TransferNft (recipient : String) (token_id : String)
  | SendNft (contract : String) (token_id : String) (msg : Binary)
  | Approve (spender : String) (token_id : String) (expires : Option Expiration)
  | Revoke (spender : String) (token_id : String)
  | ApproveAll (operator : String) (expires : Option Expiration)
  | RevokeAll (operator : String)
deriving DecidableEq

/-- The base registry's command vocabulary,
`cw721_base::msg::ExecuteMsg<XyzExtension>` (external crate). -/
inductive CW721ExecuteMsg where
  | TransferNft (recipient : String) (token_id : String)
  | SendNft (contract : String) (token_id : String) (msg : Binary)
  | Approve (spender : String) (token_id : String) (expires : Option Expiration)
  | Revoke (spender : String) (token_id : String)
  | ApproveAll (operator : String) (expires : Option Expiration)
  | RevokeAll (operator : String)
  | Mint (mint_msg : MintMsg)
  | Burn (token_id : String)
deriving DecidableEq

/-- The extended query vocabulary `QueryMsg` (nft.rs lines 212-284). -/
inductive QueryMsg where
  | Config
  | CaptchaPublicKey
  | XyzTokens (owner : String) (start_after : Option String) (limit : Option Nat)
  | AllXyzTokens (start_after : Option String) (limit : Option Nat)
  | XyzNftInfo (token_id : String)
  | XyzNftInfoByCoords (coordinates : Coordinates)
  | NumTokensForOwner (owner : String)
  | MoveParams (token_id : String) (coordinates : Coordinates)
  | OwnerOf (token_id : String) (include_expired : Option Bool)
  | ApprovedForAll (owner : String) (include_expired : Option Bool)
      (start_after : Option String) (limit : Option Nat)
  | NumTokens
  | ContractInfo
  | NftInfo (token_id : String)
  | AllNftInfo (token_id : String) (include_expired : Option Bool)
  | Tokens (owner : String) (start_after : Option String) (limit : Option Nat)
  | AllTokens (start_after : Option String) (limit : Option Nat)
deriving DecidableEq

/-- The base registry's query vocabulary, `cw721_base::msg::QueryMsg`
(external crate). -/
inductive CW721QueryMsg where
  | OwnerOf (token_id : String) (include_expired : Option Bool)
  | ApprovedForAll (owner : String) (include_expired : Option Bool)
      (start_after : Option String) (limit : Option Nat)
  | NumTokens
  | ContractInfo
  | NftInfo (token_id : String)
  | AllNftInfo (token_id : String) (include_expired : Option Bool)
  | Tokens (owner : String) (start_after : Option String) (limit : Option Nat)
  | AllTokens (start_after : Option String) (limit : Option Nat)
  | Minter
deriving DecidableEq

/-- The adapter `impl From<ExecuteMsg> for CW721ExecuteMsg<XyzExtension>`
(nft.rs lines 169-207).  The wildcard arm of the source is
`panic!("cannot covert ...")`, a runtime abort, modelled as `none`. -/
def executeMsgToBase : ExecuteMsg → Option CW721ExecuteMsg
  | .TransferNft recipient token_id => some (.TransferNft recipient token_id)
  | .SendNft contract token_id msg => some (.SendNft contract token_id msg)
  | .Approve spender token_id expires => some (.Approve spender token_id expires)
  | .Revoke spender token_id => some (.Revoke spender token_id)
  | .ApproveAll operator expires => some (.ApproveAll operator expires)
  | .RevokeAll operator => some (.RevokeAll operator)
  | _ => none

/-- The adapter `impl From<QueryMsg> for CW721QueryMsg`
(nft.rs lines 286-345).  The wildcard arm of the source is
`panic!("cannot covert ...")`, a runtime abort, modelled as `none`. -/
def queryMsgToBase : QueryMsg → Option CW721QueryMsg
  | .XyzTokens owner start_after limit => some (.Tokens owner start_after limit)
  | .AllXyzTokens start_after limit => some (.AllTokens start_after limit)
  | .XyzNftInfo token_id => some (.NftInfo token_id)
  | .OwnerOf token_id include_expired => some (.OwnerOf token_id include_expired)
  | .ApprovedForAll owner include_expired start_after limit =>
      some (.ApprovedForAll owner include_expired start_after limit)
  | .NumTokens => some .NumTokens
  | .ContractInfo => some .ContractInfo
  | .NftInfo token_id => some (.NftInfo token_id)
  | .AllNftInfo token_id include_expired => some (.AllNftInfo token_id include_expired)
  | .Tokens owner start_after limit => some (.Tokens owner start_after limit)
  | .AllTokens start_after limit => some (.AllTokens start_after limit)
  | _ => none

/-- The command variants that exist in both the extended and the base
vocabulary (the arms copied from cw721-base). -/
def ExecuteMsg.isBaseVariant : ExecuteMsg → Bool
  | .TransferNft .. => true
  | .SendNft .. => true
  | .Approve .. => true
  | .Revoke .. => true
  | .ApproveAll .. => true
  | .RevokeAll .. => true
  | _ => false

/-- The query variants that exist in both the extended and the base
vocabulary (the arms copied from cw721-base). -/
def QueryMsg.isBaseVariant : QueryMsg → Bool
  | .OwnerOf .. => true
  | .ApprovedForAll .. => true
  | .NumTokens => true
  | .ContractInfo => true
  | .NftInfo .. => true
  | .AllNftInfo .. => true
  | .Tokens .. => true
  | .AllTokens .. => true
  | _ => false

/-- One axis of `distance` succeeds exactly when the absolute difference is
representable in i64, and then returns it. -/
theorem axisDist_char (a b : Int) :
    axisDist a b =
      if (a - b).natAbs ≤ 2 ^ 63 - 1 then some (((a - b).natAbs : Nat) : Int) else none := by
  simp only [axisDist, checkedSubI64, checkedAbsI64, I64_MIN, I64_MAX]
  split_ifs <;> simp_all <;> omega

set_option maxHeartbeats 2000000 in
/-- Characterization of `Coordinates::distance`: it returns the exact
Manhattan distance whenever that is at most `u16::MAX` and aborts
otherwise.  (When the Manhattan distance fits in a u16, every
intermediate i64 value fits as well, so the only abort conditions are
subsumed by the final u16 range check.) -/
theorem distance_char (a b : Coordinates) :
    distance a b =
      if manhattanNat a b ≤ U16_MAX then some (manhattanNat a b) else none := by
  simp only [distance, axisDist_char, checkedAddI64, I64_MIN, I64_MAX, manhattanNat, U16_MAX]
  split_ifs <;>
    (try simp only [Option.some_bind, Option.none_bind]) <;>
    (try split_ifs) <;>
    (try simp only [Option.some_bind, Option.none_bind]) <;>
    (try split_ifs) <;>
    (try simp only [Option.some_bind, Option.none_bind]) <;>
    (try split_ifs) <;>
    first
    | rfl
    | (exfalso; omega)

/-- When the result of `distance` exists it is the exact Manhattan
distance. -/
theorem distance_eq_some (a b : Coordinates) (d : Nat) (h : distance a b = some d) :
    d = manhattanNat a b ∧ manhattanNat a b ≤ U16_MAX := by
  rw [distance_char] at h
  by_cases hc : manhattanNat a b ≤ U16_MAX
  · rw [if_pos hc] at h
    simp only [Option.some.injEq] at h
    exact ⟨h.symm, hc⟩
  · rw [if_neg hc] at h
    exact absurd h (by simp)

/-- For a non-negative `max_coordinate_value` in the i64 range,
`check_bounds` answers by the `inBounds` interval test, with the generic
out-of-range message in the error case. -/
theorem check_bounds_char (cfg : Config) (c : Coordinates)
    (h0 : 0 ≤ cfg.max_coordinate_value) (h1 : cfg.max_coordinate_value ≤ I64_MAX) :
    cfg.check_bounds c =
      if inBounds cfg c then some (Except.ok ()) else
        some (Except.error
          ("coordinate values must be between " ++ toString (-cfg.max_coordinate_value) ++
            " and " ++ toString cfg.max_coordinate_value)) := by
  unfold Config.check_bounds checkedNegI64
  rw [if_pos (by simp only [I64_MIN, I64_MAX] at *; omega)]
  simp only [Option.some_bind, List.any_cons, List.any_nil, Bool.or_false, Bool.or_eq_true,
    decide_eq_true_eq, inBounds]
  split_ifs <;> first | rfl | (exfalso; omega)

/-- Claim C3: wherever it is defined, `Coordinates::distance` computes the
Manhattan/L1 distance -- the sum of the absolute coordinate differences
along the three axes -- and the result is a non-negative integer. -/
theorem claim3_distance_is_manhattan (a b : Coordinates) (d : Nat)
    (h : distance a b = some d) :
    (d : Int) = |a.x - b.x| + |a.y - b.y| + |a.z - b.z| ∧ 0 ≤ (d : Int) := by
  obtain ⟨hd, _⟩ := distance_eq_some a b d h
  subst hd
  refine ⟨?_, by positivity⟩
  simp only [manhattanNat]
  rw [Int.abs_eq_natAbs, Int.abs_eq_natAbs, Int.abs_eq_natAbs]
  push_cast
  ring

/-- Claim C3 witness: the distance from (0,0,0) to (3,1,0) is defined and
equals 4 = |0-3| + |0-1| + |0-0|. -/
theorem claim3_witness :
    ((4 : Nat) : Int) =
        |(0 : Int) - 3| + |(0 : Int) - 1| + |(0 : Int) - 0| ∧ 0 ≤ ((4 : Nat) : Int) :=
  claim3_distance_is_manhattan ⟨0, 0, 0⟩ ⟨3, 1, 0⟩ 4 (by decide)

/-- Claim C7: `Coordinates::distance` either returns the exact Manhattan
distance or fails deterministically (modelled by `none`); it never returns
a value other than the exact distance, whatever the coordinate values. -/
theorem claim7_distance_no_silent_wrap (a b : Coordinates) :
    distance a b = none ∨ distance a b = some (manhattanNat a b) := by
  rw [distance_char]
  split_ifs
  · right; rfl
  · left; rfl

/-- Claim C8: `distance` is symmetric in its two arguments, and the
distance from any point to itself is zero. -/
theorem claim8_distance_symm_refl :
    (∀ a b : Coordinates, distance a b = distance b a) ∧
    (∀ a : Coordinates, distance a a = some 0) := by
  constructor
  · intro a b
    rw [distance_char, distance_char]
    have h : manhattanNat a b = manhattanNat b a := by
      simp only [manhattanNat]; omega
    rw [h]
  · intro a
    rw [distance_char]
    have h : manhattanNat a a = 0 := by
      simp only [manhattanNat]; omega
    rw [h]
    simp [U16_MAX]

/-- Claim C9: `distance` truncates to u16 -- whenever the true Manhattan
distance exceeds `u16::MAX` = 65535 the conversion fails instead of
returning a value, so `get_move_fee` and `get_move_nanos` are only defined
for moves of distance at most 65535; with `max_coordinate_value` = 10923
(the first value above 10922) two coordinates can pass `check_bounds` and
still be too far apart for `distance` to be defined. -/
theorem claim9_distance_u16_truncation :
    (∀ a b : Coordinates, U16_MAX < manhattanNat a b → distance a b = none) ∧
    (∀ (cfg : Config) (a b : Coordinates),
      (cfg.get_move_fee a b).isSome = true → manhattanNat a b ≤ U16_MAX) ∧
    (∀ (cfg : Config) (a b : Coordinates),
      (cfg.get_move_nanos a b).isSome = true → manhattanNat a b ≤ U16_MAX) ∧
    (cfg10923.check_bounds ⟨-10923, -10923, -10923⟩ = some (Except.ok ()) ∧
     cfg10923.check_bounds ⟨10923, 10923, 10923⟩ = some (Except.ok ()) ∧
     U16_MAX < manhattanNat ⟨-10923, -10923, -10923⟩ ⟨10923, 10923, 10923⟩ ∧
     distance ⟨-10923, -10923, -10923⟩ ⟨10923, 10923, 10923⟩ = none) := by
  have hnone : ∀ a b : Coordinates, U16_MAX < manhattanNat a b → distance a b = none := by
    intro a b hgt
    rw [distance_char, if_neg (by omega)]
  refine ⟨hnone, ?_, ?_, by decide, by decide, by decide, by decide⟩
  · intro cfg a b h
    by_contra hgt
    push_neg at hgt
    unfold Config.get_move_fee at h
    rw [hnone a b hgt] at h
    simp at h
  · intro cfg a b h
    by_contra hgt
    push_neg at hgt
    unfold Config.get_move_nanos at h
    rw [hnone a b hgt] at h
    simp at h

/-- Claim C9 witness: the truncation boundary in action -- a pair at
Manhattan distance 65536 on which `distance` aborts, and a pair at
distance 4 for which `get_move_fee` is defined within the u16 range. -/
theorem claim9_witness :
    distance ⟨0, 0, 0⟩ ⟨65536, 0, 0⟩ = none ∧
    manhattanNat ⟨0, 0, 0⟩ ⟨3, 1, 0⟩ ≤ U16_MAX := by
  refine ⟨claim9_distance_u16_truncation.1 ⟨0, 0, 0⟩ ⟨65536, 0, 0⟩ (by decide), ?_⟩
  exact claim9_distance_u16_truncation.2.1 cfgExample ⟨0, 0, 0⟩ ⟨3, 1, 0⟩ (by decide)

/-- Claim C4: for configurations with non-negative `max_coordinate_value`
(within i64), `check_bounds` accepts exactly the coordinates whose three
axes lie in the closed interval `[-max, max]`, and returns an error for
every other coordinate triple. -/
theorem claim4_check_bounds_interval (cfg : Config) (c : Coordinates)
    (h0 : 0 ≤ cfg.max_coordinate_value) (h1 : cfg.max_coordinate_value ≤ I64_MAX) :
    (cfg.check_bounds c = some (Except.ok ()) ↔ inBounds cfg c) ∧
    (¬inBounds cfg c → ∃ msg, cfg.check_bounds c = some (Except.error msg)) := by
  rw [check_bounds_char cfg c h0 h1]
  constructor
  · split_ifs with h
    · simp [h]
    · simp [h]
  · intro h
    rw [if_neg h]
    exact ⟨_, rfl⟩

/-- Claim C4 witness: with `max_coordinate_value` = 100 (the
configuration of the spec's example), (100,100,100) is accepted while
(101,0,0), (-101,0,0), (0,101,0) and (0,0,-101) are all rejected. -/
theorem claim4_witness :
    cfgExample.check_bounds ⟨100, 100, 100⟩ = some (Except.ok ()) ∧
    cfgExample.check_bounds ⟨101, 0, 0⟩ ≠ some (Except.ok ()) ∧
    cfgExample.check_bounds ⟨-101, 0, 0⟩ ≠ some (Except.ok ()) ∧
    cfgExample.check_bounds ⟨0, 101, 0⟩ ≠ some (Except.ok ()) ∧
    cfgExample.check_bounds ⟨0, 0, -101⟩ ≠ some (Except.ok ()) := by
  refine ⟨(claim4_check_bounds_interval cfgExample ⟨100, 100, 100⟩ (by decide)
    (by decide)).1.mpr (by decide), ?_, ?_, ?_, ?_⟩ <;>
    intro h <;>
    exact absurd
      ((claim4_check_bounds_interval cfgExample _ (by decide) (by decide)).1.mp h)
      (by decide)

/-- Claim C1 (amended): wherever `distance` is defined, `get_move_fee`
returns a coin denominated in `base_move_fee.denom` whose amount is
exactly `base_move_fee.amount + move_fee_per_step * distance(start, end)`
-- provided that exact sum fits in u128; when it does not, the checked
u128 arithmetic aborts instead of producing the exact (or any) value. -/
theorem claim1_move_fee_formula (cfg : Config) (start finish : Coordinates) (d : Nat)
    (h : distance start finish = some d) :
    (cfg.base_move_fee.amount + cfg.move_fee_per_step * d ≤ U128_MAX →
      cfg.get_move_fee start finish =
        some ⟨cfg.base_move_fee.amount + cfg.move_fee_per_step * d,
          cfg.base_move_fee.denom⟩) ∧
    (U128_MAX < cfg.base_move_fee.amount + cfg.move_fee_per_step * d →
      cfg.get_move_fee start finish = none) := by
  unfold Config.get_move_fee
  rw [h]
  simp only [Option.some_bind, checkedMulU128, checkedAddU128]
  constructor
  · intro hle
    rw [if_pos (by omega)]
    simp only [Option.some_bind]
    rw [if_pos (by omega)]
    simp only [Option.some_bind]
  · intro hgt
    by_cases hm : cfg.move_fee_per_step * d ≤ U128_MAX
    · rw [if_pos hm]
      simp only [Option.some_bind]
      rw [if_neg (by omega)]
      simp only [Option.none_bind]
    · rw [if_neg hm]
      simp only [Option.none_bind]

/-- Claim C1 witness: the spec's worked example -- base fee 10, 2 per
step, moving from (0,0,0) to (3,1,0) (distance 4) costs exactly 18. -/
theorem claim1_witness :
    cfgExample.get_move_fee ⟨0, 0, 0⟩ ⟨3, 1, 0⟩ = some ⟨18, "uluna"⟩ := by
  have h := (claim1_move_fee_formula cfgExample ⟨0, 0, 0⟩ ⟨3, 1, 0⟩ 4 (by decide)).1
    (by decide)
  simpa [cfgExample] using h

/-- Claim C1 counterexample: with `base_move_fee.amount` = u128::MAX and
`move_fee_per_step` = 1, the move from (0,0,0) to (1,0,0) has a defined
distance of 1, yet `get_move_fee` does not return a coin whose amount is
the exact sum `u128::MAX + 1` -- the u128 addition aborts. -/
theorem claim1_counterexample :
    distance ⟨0, 0, 0⟩ ⟨1, 0, 0⟩ = some 1 ∧
    cfgFeeOverflow.get_move_fee ⟨0, 0, 0⟩ ⟨1, 0, 0⟩ = none ∧
    cfgFeeOverflow.get_move_fee ⟨0, 0, 0⟩ ⟨1, 0, 0⟩ ≠
      some ⟨cfgFeeOverflow.base_move_fee.amount + cfgFeeOverflow.move_fee_per_step * 1,
        cfgFeeOverflow.base_move_fee.denom⟩ := by
  refine ⟨by decide, by decide, by decide⟩

/-- Claim C2 (amended): wherever `distance` is defined, `get_move_nanos`
returns exactly `base_move_nanos + move_nanos_per_step * distance(start,
end)` -- provided that exact sum fits in u64; when it does not, the
checked u64 arithmetic aborts instead of producing the exact (or any)
value. -/
theorem claim2_move_nanos_formula (cfg : Config) (start finish : Coordinates) (d : Nat)
    (h : distance start finish = some d) :
    (cfg.base_move_nanos + cfg.move_nanos_per_step * d ≤ U64_MAX →
      cfg.get_move_nanos start finish =
        some (cfg.base_move_nanos + cfg.move_nanos_per_step * d)) ∧
    (U64_MAX < cfg.base_move_nanos + cfg.move_nanos_per_step * d →
      cfg.get_move_nanos start finish = none) := by
  unfold Config.get_move_nanos
  rw [h]
  simp only [Option.some_bind, checkedMulU64, checkedAddU64]
  constructor
  · intro hle
    rw [if_pos (by omega)]
    simp only [Option.some_bind]
    rw [if_pos (by omega)]
  · intro hgt
    by_cases hm : cfg.move_nanos_per_step * d ≤ U64_MAX
    · rw [if_pos hm]
      simp only [Option.some_bind]
      rw [if_neg (by omega)]
    · rw [if_neg hm]
      simp only [Option.none_bind]

/-- Claim C2 witness: the spec's worked example -- base 1000 ns, 500 ns
per step, moving from (0,0,0) to (3,1,0) (distance 4) takes exactly 3000
nanoseconds. -/
theorem claim2_witness :
    cfgExample.get_move_nanos ⟨0, 0, 0⟩ ⟨3, 1, 0⟩ = some 3000 := by
  have h := (claim2_move_nanos_formula cfgExample ⟨0, 0, 0⟩ ⟨3, 1, 0⟩ 4 (by decide)).1
    (by decide)
  simpa [cfgExample] using h

/-- Claim C2 counterexample: with `base_move_nanos` = u64::MAX and
`move_nanos_per_step` = 1, the move from (0,0,0) to (1,0,0) has a defined
distance of 1, yet `get_move_nanos` does not return the exact sum
`u64::MAX + 1` -- the u64 addition aborts. -/
theorem claim2_counterexample :
    distance ⟨0, 0, 0⟩ ⟨1, 0, 0⟩ = some 1 ∧
    cfgNanosOverflow.get_move_nanos ⟨0, 0, 0⟩ ⟨1, 0, 0⟩ = none ∧
    cfgNanosOverflow.get_move_nanos ⟨0, 0, 0⟩ ⟨1, 0, 0⟩ ≠
      some (cfgNanosOverflow.base_move_nanos + cfgNanosOverflow.move_nanos_per_step * 1) := by
  refine ⟨by decide, by decide, by decide⟩

/-- Claim C5: on every command/query variant shared by the extended and
the base vocabulary, the adapter translates to the base vocabulary's
matching variant with field-for-field identical contents, totally
(always `some`) and injectively on that variant subset. -/
theorem claim5_adapter_lossless :
    (∀ recipient token_id : String,
      executeMsgToBase (.TransferNft recipient token_id) =
        some (.TransferNft recipient token_id)) ∧
    (∀ (contract token_id : String) (msg : Binary),
      executeMsgToBase (.SendNft contract token_id msg) =
        some (.SendNft contract token_id msg)) ∧
    (∀ (spender token_id : String) (expires : Option Expiration),
      executeMsgToBase (.Approve spender token_id expires) =
        some (.Approve spender token_id expires)) ∧
    (∀ spender token_id : String,
      executeMsgToBase (.Revoke spender token_id) = some (.Revoke spender token_id)) ∧
    (∀ (operator : String) (expires : Option Expiration),
      executeMsgToBase (.ApproveAll operator expires) =
        some (.ApproveAll operator expires)) ∧
    (∀ operator : String,
      executeMsgToBase (.RevokeAll operator) = some (.RevokeAll operator)) ∧
    (∀ (token_id : String) (include_expired : Option Bool),
      queryMsgToBase (.OwnerOf token_id include_expired) =
        some (.OwnerOf token_id include_expired)) ∧
    (∀ (owner : String) (include_expired : Option Bool) (start_after : Option String)
        (limit : Option Nat),
      queryMsgToBase (.ApprovedForAll owner include_expired start_after limit) =
        some (.ApprovedForAll owner include_expired start_after limit)) ∧
    (queryMsgToBase .NumTokens = some .NumTokens) ∧
    (queryMsgToBase .ContractInfo = some .ContractInfo) ∧
    (∀ token_id : String,
      queryMsgToBase (.NftInfo token_id) = some (.NftInfo token_id)) ∧
    (∀ (token_id : String) (include_expired : Option Bool),
      queryMsgToBase (.AllNftInfo token_id include_expired) =
        some (.AllNftInfo token_id include_expired)) ∧
    (∀ (owner : String) (start_after : Option String) (limit : Option Nat),
      queryMsgToBase (.Tokens owner start_after limit) =
        some (.Tokens owner start_after limit)) ∧
    (∀ (start_after : Option String) (limit : Option Nat),
      queryMsgToBase (.AllTokens start_after limit) =
        some (.AllTokens start_after limit)) ∧
    (∀ m1 m2 : ExecuteMsg, m1.isBaseVariant = true → m2.isBaseVariant = true →
      executeMsgToBase m1 = executeMsgToBase m2 → m1 = m2) ∧
    (∀ q1 q2 : QueryMsg, q1.isBaseVariant = true → q2.isBaseVariant = true →
      queryMsgToBase q1 = queryMsgToBase q2 → q1 = q2) := by
  refine ⟨fun _ _ => rfl, fun _ _ _ => rfl, fun _ _ _ => rfl, fun _ _ => rfl,
    fun _ _ => rfl, fun _ => rfl, fun _ _ => rfl, fun _ _ _ _ => rfl, rfl, rfl,
    fun _ => rfl, fun _ _ => rfl, fun _ _ _ => rfl, fun _ _ => rfl, ?_, ?_⟩
  · intro m1 m2 h1 h2 h
    cases m1 <;> cases m2 <;>
      simp_all [executeMsgToBase, ExecuteMsg.isBaseVariant]
  · intro q1 q2 h1 h2 h
    cases q1 <;> cases q2 <;>
      simp_all [queryMsgToBase, QueryMsg.isBaseVariant]

/-- Claim C5 witness: the translation applied to concrete shared variants,
and the restricted injectivity applied at a concrete pair. -/
theorem claim5_witness :
    executeMsgToBase (ExecuteMsg.RevokeAll "op") =
      some (CW721ExecuteMsg.RevokeAll "op") ∧
    ExecuteMsg.RevokeAll "op" = ExecuteMsg.RevokeAll "op" ∧
    QueryMsg.NumTokens = QueryMsg.NumTokens := by
  refine ⟨claim5_adapter_lossless.2.2.2.2.2.1 "op", ?_, ?_⟩
  · exact claim5_adapter_lossless.2.2.2.2.2.2.2.2.2.2.2.2.2.2.1
      (.RevokeAll "op") (.RevokeAll "op") rfl rfl rfl
  · exact claim5_adapter_lossless.2.2.2.2.2.2.2.2.2.2.2.2.2.2.2
      .NumTokens .NumTokens rfl rfl rfl

/-- Claim C6: contrary to the claim, translating an extension-only variant
is not prevented statically -- the conversion's wildcard arm is reached at
run time and aborts the process (`panic!("cannot covert ...")`, modelled
here as `none`), for every extension-only command and query variant. -/
theorem claim6_adapter_panics :
    executeMsgToBase (ExecuteMsg.Mint ⟨0, 0, 0⟩ "sig") = none ∧
    executeMsgToBase (ExecuteMsg.Move "token1" ⟨1, 2, 3⟩) = none ∧
    executeMsgToBase
      (ExecuteMsg.UpdateConfig ⟨true, 100, 1, 1, ⟨1, "u"⟩, 1, 1, ⟨1, "u"⟩, 1⟩) = none ∧
    executeMsgToBase (ExecuteMsg.UpdateCaptchaPublicKey "key") = none ∧
    executeMsgToBase (ExecuteMsg.Withdraw []) = none ∧
    queryMsgToBase QueryMsg.Config = none ∧
    queryMsgToBase QueryMsg.CaptchaPublicKey = none ∧
    queryMsgToBase (QueryMsg.XyzNftInfoByCoords ⟨0, 0, 0⟩) = none ∧
    queryMsgToBase (QueryMsg.NumTokensForOwner "owner") = none ∧
    queryMsgToBase (QueryMsg.MoveParams "token1" ⟨0, 0, 0⟩) = none :=
  ⟨rfl, rfl, rfl, rfl, rfl, rfl, rfl, rfl, rfl, rfl⟩

/-- A `k`-byte big-endian encoding always has length `k`. -/
theorem bytesBE_length (k : Nat) : ∀ n : Nat, (bytesBE k n).length = k := by
  induction k with
  | zero => intro n; rfl
  | succ k ih => intro n; simp [bytesBE, ih]

/-- Big-endian byte encoding is injective below `256 ^ k`. -/
theorem bytesBE_inj (k : Nat) : ∀ m n : Nat, m < 256 ^ k → n < 256 ^ k →
    bytesBE k m = bytesBE k n → m = n := by
  induction k with
  | zero =>
    intro m n hm hn _
    simp only [pow_zero] at hm hn
    omega
  | succ k ih =>
    intro m n hm hn h
    simp only [bytesBE] at h
    obtain ⟨h1, h2⟩ := List.append_inj h (by rw [bytesBE_length, bytesBE_length])
    have hpow : (256 : Nat) ^ (k + 1) = 256 ^ k * 256 := by ring
    have hm' : m / 256 < 256 ^ k := by omega
    have hn' : n / 256 < 256 ^ k := by omega
    have hdiv := ih (m / 256) (n / 256) hm' hn' h1
    simp only [List.cons.injEq] at h2
    omega

/-- The 8-byte encoding of an i64 always has length 8. -/
theorem i64ToBeBytes_length (v : Int) : (i64ToBeBytes v).length = 8 := by
  simp [i64ToBeBytes, bytesBE_length]

/-- The 8-byte big-endian two's-complement encoding is injective on the
i64 range. -/
theorem i64ToBeBytes_inj (v1 v2 : Int)
    (h1 : I64_MIN ≤ v1) (h2 : v1 ≤ I64_MAX) (h3 : I64_MIN ≤ v2) (h4 : v2 ≤ I64_MAX)
    (h : i64ToBeBytes v1 = i64ToBeBytes v2) : v1 = v2 := by
  unfold i64ToBeBytes at h
  have b1 : (0 : Int) ≤ v1 % (2 ^ 64 : Int) := Int.emod_nonneg _ (by norm_num)
  have b2 : v1 % (2 ^ 64 : Int) < 2 ^ 64 := Int.emod_lt_of_pos _ (by norm_num)
  have b3 : (0 : Int) ≤ v2 % (2 ^ 64 : Int) := Int.emod_nonneg _ (by norm_num)
  have b4 : v2 % (2 ^ 64 : Int) < 2 ^ 64 := Int.emod_lt_of_pos _ (by norm_num)
  have e1 : (v1 % (2 ^ 64 : Int)).toNat < 256 ^ 8 := by norm_num at *; omega
  have e2 : (v2 % (2 ^ 64 : Int)).toNat < 256 ^ 8 := by norm_num at *; omega
  have heq := bytesBE_inj 8 _ _ e1 e2 h
  simp only [I64_MIN, I64_MAX] at h1 h2 h3 h4
  omega

/-- Claim C10: `Coordinates::to_bytes` always returns exactly 24 bytes
(the 8-byte big-endian encodings of x, y and z concatenated in that
order), and on i64-ranged coordinates it is injective: two coordinate
triples have equal encodings exactly when they are equal. -/
theorem claim10_to_bytes_injective :
    (∀ c : Coordinates,
      c.to_bytes = i64ToBeBytes c.x ++ i64ToBeBytes c.y ++ i64ToBeBytes c.z ∧
      c.to_bytes.length = 24) ∧
    (∀ a b : Coordinates, a.valid → b.valid →
      (a.to_bytes = b.to_bytes ↔ a = b)) := by
  constructor
  · intro c
    refine ⟨rfl, ?_⟩
    simp [Coordinates.to_bytes, i64ToBeBytes_length]
  · intro a b ha hb
    constructor
    · intro h
      unfold Coordinates.to_bytes at h
      obtain ⟨hxy, hz⟩ := List.append_inj h
        (by simp [i64ToBeBytes_length])
      obtain ⟨hx, hy⟩ := List.append_inj hxy
        (by simp [i64ToBeBytes_length])
      obtain ⟨ax1, ax2, ay1, ay2, az1, az2⟩ := ha
      obtain ⟨bx1, bx2, by1, by2, bz1, bz2⟩ := hb
      have ex := i64ToBeBytes_inj a.x b.x ax1 ax2 bx1 bx2 hx
      have ey := i64ToBeBytes_inj a.y b.y ay1 ay2 by1 by2 hy
      have ez := i64ToBeBytes_inj a.z b.z az1 az2 bz1 bz2 hz
      cases a
      cases b
      simp_all
    · intro h
      rw [h]

/-- Claim C10 witness: the 24-byte length and the injectivity
equivalence evaluated on concrete i64-ranged coordinates. -/
theorem claim10_witness :
    ((⟨1, 2, 3⟩ : Coordinates).to_bytes =
        i64ToBeBytes 1 ++ i64ToBeBytes 2 ++ i64ToBeBytes 3 ∧
      (⟨1, 2, 3⟩ : Coordinates).to_bytes.length = 24) ∧
    ((⟨1, 2, 3⟩ : Coordinates).to_bytes = (⟨1, 2, 3⟩ : Coordinates).to_bytes ↔
      (⟨1, 2, 3⟩ : Coordinates) = ⟨1, 2, 3⟩) :=
  ⟨claim10_to_bytes_injective.1 ⟨1, 2, 3⟩,
    claim10_to_bytes_injective.2 ⟨1, 2, 3⟩ ⟨1, 2, 3⟩ (by decide) (by decide)⟩

end Xyz
